import Mathlib

/-!
# Verification of the transcriptor pipeline

A shallow embedding, in Lean 4, of the multi-stage YouTube-transcript
pipeline (fetch transcripts → generate descriptions → push descriptions),
together with proofs and refutations of the stated properties of its
specification.

Sources embedded:
* `index.js` — the fetch stage (`getPlaylistVideos`, `getTranscript`,
  `formatTranscript`, `sanitizeFilename`, `main`);
* `generate-descriptions.cjs` — the describe stage (`parseTranscript`,
  `categorizeVideo`, `generateSummary`, `generateDescription`, `main`);
* `push-descriptions.cjs` — the publish stage (`getAuthClient` ordering,
  `updateVideoDescription`, `buildUpdateList`, `main`);
* the MCP server's `generate_description` tool (hashtag handling).

External effects (the YouTube API, the transcript library, the filesystem
clock, `fs` write success) are supplied as environment oracles; filesystem
and ledger contents are threaded as explicit state, with a separate field
for the durable (persisted-to-disk) copy of each stage's ledger so that
crash behaviour can be stated.
-/

namespace Transcriptor

/-! ## JavaScript string primitives

Small helpers that mirror the semantics of the JavaScript string
operations used by the source (splitting, first-occurrence
`String.prototype.replace` with a string pattern, truthiness-based
empty-string fallback, `includes`, `toLowerCase`, whitespace handling).
They are implemented by structural recursion over the character list so
that every definition evaluates on concrete inputs.  `Char.isWhitespace`
and `Char.toLower` stand in for the JS `\s` class and `toLowerCase`
(they agree on ASCII, which is all the source's patterns use). -/

/-- Split a character list at the (non-overlapping, left-to-right)
occurrences of `pat`; `fuel` bounds the recursion and is instantiated
with the list's length, which one step never exceeds. -/
def listSplitOnFuel (pat : List Char) : Nat → List Char → List (List Char)
  | _, [] => [[]]
  | 0, l => [l]
  | fuel + 1, c :: rest =>
    if pat.isPrefixOf (c :: rest) then
      [] :: listSplitOnFuel pat fuel ((c :: rest).drop pat.length)
    else
      match listSplitOnFuel pat fuel rest with
      | [] => [[c]]
      | s :: ss => (c :: s) :: ss

/-- `s.split(pat)` on character lists (for a non-empty pattern; with an
empty pattern the whole list is one segment, a case the source never
exercises). -/
def listSplitOn (pat l : List Char) : List (List Char) :=
  if pat.isEmpty then [l] else listSplitOnFuel pat l.length l

/-- JS `s.split(pat)` (also the shape of a match on the literal `pat`:
more than one segment exactly when `pat` occurs). -/
def jsSplitOn (s pat : String) : List String :=
  (listSplitOn pat.data s.data).map String.mk

/-- Join a list of strings with a separator (structural
`Array.prototype.join`). -/
def strIntercalate (sep : String) : List String → String
  | [] => ""
  | [s] => s
  | s :: rest => s ++ sep ++ strIntercalate sep rest

/-- Concatenate a list of strings. -/
def strJoin : List String → String
  | [] => ""
  | s :: rest => s ++ strJoin rest

/-- Replace every (non-overlapping, left-to-right) occurrence of `pat`
by `rep`; `fuel` bounds the recursion as in `listSplitOnFuel`. -/
def listReplaceAllFuel (pat rep : List Char) : Nat → List Char → List Char
  | _, [] => []
  | 0, l => l
  | fuel + 1, c :: rest =>
    if pat.isPrefixOf (c :: rest) then
      rep ++ listReplaceAllFuel pat rep fuel ((c :: rest).drop pat.length)
    else
      c :: listReplaceAllFuel pat rep fuel rest

/-- JS `s.replace(/pat/g, rep)` for a literal non-empty pattern. -/
def jsReplaceAll (s pat rep : String) : String :=
  if pat.isEmpty then s
  else String.mk (listReplaceAllFuel pat.data rep.data s.data.length s.data)

/-- JS `s.replace(pat, rep)` with a *string* pattern: replaces only the
first occurrence of `pat`. -/
def jsReplaceFirst (s pat rep : String) : String :=
  match jsSplitOn s pat with
  | [] => s
  | [x] => x
  | x :: rest => x ++ rep ++ strIntercalate pat rest

/-- JS `a || b` where `a` is a possibly-absent string: an absent or empty
string falls through to `b`. -/
def jsOrStr (a : Option String) (b : String) : String :=
  match a with
  | some s => if s = "" then b else s
  | none => b

/-- JS `s.includes(pat)` for a non-empty pattern. -/
def jsIncludes (s pat : String) : Bool :=
  (jsSplitOn s pat).length != 1

/-- JS `s.toLowerCase()` (ASCII fragment). -/
def jsToLower (s : String) : String :=
  String.mk (s.data.map Char.toLower)

/-- JS `s.startsWith(pat)`. -/
def jsStartsWith (s pat : String) : Bool :=
  pat.data.isPrefixOf s.data

/-- JS `s.endsWith(pat)`. -/
def jsEndsWith (s pat : String) : Bool :=
  pat.data.reverse.isPrefixOf s.data.reverse

/-- JS `s.trim()`. -/
def jsTrim (s : String) : String :=
  String.mk
    (((s.data.dropWhile Char.isWhitespace).reverse.dropWhile Char.isWhitespace).reverse)

/-- Drop the last `n` characters. -/
def jsDropRight (s : String) (n : Nat) : String :=
  String.mk (s.data.take (s.data.length - n))

/-- JS `s.slice(0, n)`. -/
def jsSliceTo (s : String) (n : Nat) : String :=
  String.mk (s.data.take n)

/-- Everything of `l` after the first occurrence of separator `pat`,
given the result of splitting on `pat`. -/
def joinTail (pat : String) : List String → String
  | [] => ""
  | _ :: rest => strIntercalate pat rest

/-- Association-list lookup, modelling JS `obj[key]` on a plain object
used as a map. -/
def lookupEntry {α : Type} (l : List (String × α)) (k : String) : Option α :=
  (l.find? (fun p => p.1 == k)).map (·.2)

/-- Association-list update, modelling JS `obj[key] = v` (overwrites the
key if present, appends it otherwise). -/
def setEntry {α : Type} (l : List (String × α)) (k : String) (v : α) : List (String × α) :=
  if (l.find? (fun p => p.1 == k)).isSome then
    l.map (fun p => if p.1 == k then (k, v) else p)
  else
    l ++ [(k, v)]

/-! ## index.js — the fetch stage -/

/-- One entry of a `playlistItems` page, as extracted by
`getPlaylistVideos` (`index.js` lines 87–98). -/
structure Video where
  videoId : String
  title : String
  publishedAt : String
  description : String
deriving Repr, DecidableEq

/-- One segment returned by `youtube-transcript-plus`; the source reads
`item.text || item.content || item.snippet || ''`, so all three candidate
keys are modelled as possibly absent. -/
structure TranscriptItem where
  text : Option String
  content : Option String
  snippet : Option String
deriving Repr, DecidableEq

/-- `formatTranscript` (`index.js` lines 128–132): joins the segments'
texts with spaces, taking the first truthy of `text`/`content`/`snippet`
per segment. -/
def formatTranscript (transcript : List TranscriptItem) : String :=
  strIntercalate " " (transcript.map fun item =>
    jsOrStr item.text (jsOrStr item.content (jsOrStr item.snippet "")))

/-- The character class removed by `sanitizeFilename`'s first `replace`. -/
def sanitizeRemoved : List Char := ['<', '>', ':', '"', '/', '\\', '|', '?', '*']

/-- Replace every maximal whitespace run with a single underscore
(JS `replace(/\s+/g, '_')`), tracking in `inRun` whether the previous
character belonged to a whitespace run already replaced. -/
def collapseWhitespaceAux (inRun : Bool) : List Char → List Char
  | [] => []
  | c :: rest =>
    if c.isWhitespace then
      if inRun then collapseWhitespaceAux true rest
      else '_' :: collapseWhitespaceAux true rest
    else c :: collapseWhitespaceAux false rest

/-- Replace every maximal whitespace run with a single underscore. -/
def collapseWhitespace (l : List Char) : List Char :=
  collapseWhitespaceAux false l

/-- `sanitizeFilename` (`index.js` lines 152–157): drop
`[<>:"/\|?*]`, collapse whitespace runs to `_`, truncate to 100
characters. -/
def sanitizeFilename (name : String) : String :=
  String.mk ((collapseWhitespace
    (name.toList.filter (fun c => !sanitizeRemoved.contains c))).take 100)

/-- `getTranscript` (`index.js` lines 109–122).  The argument is the
outcome of the external `fetchTranscript` call: an exception, or a value
that may be null/undefined or a (possibly empty) segment list.  Any
exception and any empty result map to `none` (the JS `null`). -/
def getTranscript (res : Except String (Option (List TranscriptItem))) :
    Option (List TranscriptItem) :=
  match res with
  | .error _ => none
  | .ok none => none
  | .ok (some t) => if t.length = 0 then none else some t

end Transcriptor

namespace Transcriptor

/-! ### getPlaylistVideos (`index.js` lines 70–104)

The paginated catalog source.  The external API is modelled as the finite
sequence of pages it would serve for successive continuation tokens; each
page carries its items and whether a `nextPageToken` was present.  The
`maxResults` parameter is `Option Nat` (`null` default); the guard
`if (maxResults && videos.length >= maxResults)` uses JS truthiness, so a
supplied `0` behaves like `null`. -/

/-- The `maxResults` parameter set on every `playlistItems` request
(`index.js` line 78). -/
def playlistItemsPageSize : Nat := 50

/-- One page served by the `playlistItems` endpoint. -/
structure PlaylistPage where
  items : List Video
  /-- whether the page carried a `nextPageToken` -/
  hasNextPageToken : Bool
deriving Repr, DecidableEq

/-- The inner `for (const item of data.items)` loop: push items one at a
time, returning early (`.inl`, the JS `return videos.slice(0, maxResults)`)
as soon as the truthy-`maxResults` bound is reached. -/
def pushPageItems (maxResults : Option Nat) :
    List Video → List Video → List Video ⊕ List Video
  | acc, [] => .inr acc
  | acc, v :: vs =>
    let acc' := acc ++ [v]
    match maxResults with
    | some m =>
      if m != 0 && decide (m ≤ acc'.length) then .inl (acc'.take m)
      else pushPageItems maxResults acc' vs
    | none => pushPageItems maxResults acc' vs

/-- The `do … while (pageToken)` loop of `getPlaylistVideos`: consume the
served pages in order, stopping after a page without a continuation
token, or early when the inner loop hit `maxResults`. -/
def collectPlaylistVideos (maxResults : Option Nat) :
    List PlaylistPage → List Video → List Video
  | [], acc => acc
  | p :: rest, acc =>
    match pushPageItems maxResults acc p.items with
    | .inl truncated => truncated
    | .inr acc' =>
      if p.hasNextPageToken then collectPlaylistVideos maxResults rest acc'
      else acc'

/-- `getPlaylistVideos(playlistId, maxResults)`, over the page sequence
the API serves for that playlist. -/
def getPlaylistVideos (pages : List PlaylistPage) (maxResults : Option Nat) :
    List Video :=
  collectPlaylistVideos maxResults pages []

/-- All items of a page sequence, in catalog order. -/
def pagesFlatten (pages : List PlaylistPage) : List Video :=
  pages.flatMap (·.items)

/-- A well-formed served sequence: every page before the last carries a
continuation token and the last does not (the token chain is followed
until absent). -/
def tokenChained : List PlaylistPage → Bool
  | [] => true
  | [p] => !p.hasNextPageToken
  | p :: rest => p.hasNextPageToken && tokenChained rest

/-! ### The fetch-stage run (`index.js` `main`, lines 162–287)

The loop body (lines 196–257) has no per-item `try`/`catch`: a failing
`fs.writeFile` rejects `main`'s promise (caught only by the top-level
`main().catch(console.error)`), so the model of one step is
`Except`-valued.  The ledger (`downloaded.json`) is written by `saveLog`
exactly once, after the loop (line 260); during the loop only the
in-memory `log` object changes, so the state carries both copies. -/

/-- A record of `log.downloaded` (`index.js` lines 230–234). -/
structure DownloadRecord where
  title : String
  filename : String
  downloadedAt : String
deriving Repr, DecidableEq

/-- One element of `results` (`index.js` lines 236–250; the `filepath`
field of successful entries is determined by `title`). -/
structure FetchResultEntry where
  videoId : String
  title : String
  hasTranscript : Bool
deriving Repr, DecidableEq

/-- External oracles for one fetch run: the transcript library's outcome
per video id, whether an `fs.writeFile` at a given path succeeds, the
`toLocaleDateString` rendering, and the wall-clock ISO string used for
ledger records. -/
structure FetchEnv where
  transcriptOf : String → Except String (Option (List TranscriptItem))
  writeOk : String → Bool
  formatDate : String → String
  now : String

/-- State of a fetch run.  `memLog` is the in-memory `log.downloaded`;
`durableLog` is the content last persisted to `downloaded.json`;
`artifacts` is the transcript directory (path ↦ content).  `attempted`
is instrumentation only: the ids that passed the ledger skip-check. -/
structure FetchState where
  memLog : List (String × DownloadRecord)
  durableLog : List (String × DownloadRecord)
  artifacts : List (String × String)
  results : List FetchResultEntry
  skipped : Nat
  newDownloads : Nat
  attempted : List String
deriving Repr, DecidableEq

/-- `OUTPUT_DIR` (`index.js` line 8). -/
def fetchOutputDir : String := "./transcripts"

/-- The artifact filename for a fetched video
(`index.js` line 211): a function of the *title*, not of the video id. -/
def fetchArtifactFilename (v : Video) : String :=
  sanitizeFilename v.title ++ ".md"

/-- `path.join(OUTPUT_DIR, filename)` for a fetched video. -/
def fetchArtifactPath (v : Video) : String :=
  fetchOutputDir ++ "/" ++ fetchArtifactFilename v

/-- The markdown artifact content (`index.js` lines 215–225). -/
def transcriptContent (env : FetchEnv) (v : Video) (t : List TranscriptItem) : String :=
  strIntercalate "\n" [
    "# " ++ v.title,
    "",
    "- **Video ID:** " ++ v.videoId,
    "- **URL:** [Watch on YouTube](https://www.youtube.com/watch?v=" ++ v.videoId ++ ")",
    "- **Published:** " ++ env.formatDate v.publishedAt,
    "",
    "## Transcript",
    "",
    formatTranscript t ]

/-- An uncaught exception in the fetch loop: the id of the video whose
artifact write failed, and the state at that moment (nothing after it
runs — in particular `saveLog` does not). -/
structure FetchAbort where
  failedVideoId : String
  stateAtAbort : FetchState
deriving Repr, DecidableEq

/-- One iteration of the fetch loop (`index.js` lines 196–257). -/
def fetchStep (env : FetchEnv) (s : FetchState) (v : Video) :
    Except FetchAbort FetchState :=
  if (lookupEntry s.memLog v.videoId).isSome then
    .ok { s with skipped := s.skipped + 1 }
  else
    let s := { s with attempted := s.attempted ++ [v.videoId] }
    match getTranscript (env.transcriptOf v.videoId) with
    | some t =>
      let filename := fetchArtifactFilename v
      let filepath := fetchOutputDir ++ "/" ++ filename
      let content := transcriptContent env v t
      if env.writeOk filepath then
        .ok { s with
          artifacts := setEntry s.artifacts filepath content,
          memLog := setEntry s.memLog v.videoId
            ⟨v.title, filename, env.now⟩,
          results := s.results ++ [⟨v.videoId, v.title, true⟩],
          newDownloads := s.newDownloads + 1 }
      else
        .error ⟨v.videoId, s⟩
    | none =>
      .ok { s with results := s.results ++ [⟨v.videoId, v.title, false⟩] }

/-- The whole `for` loop over the candidate videos. -/
def fetchLoop (env : FetchEnv) : List Video → FetchState → Except FetchAbort FetchState
  | [], s => .ok s
  | v :: rest, s =>
    match fetchStep env s v with
    | .ok s' => fetchLoop env rest s'
    | .error a => .error a

/-- The `_summary.json` report (`index.js` lines 263–272). -/
structure FetchSummary where
  totalVideos : Nat
  skipped : Nat
  newDownloads : Nat
  transcriptsFound : Nat
  transcriptsNotFound : Nat
  videos : List FetchResultEntry
deriving Repr, DecidableEq

/-- The state a fetch run starts from: the durable ledger is loaded into
memory (`loadLog`), the transcripts directory may already hold artifacts
from earlier runs. -/
def initFetchState (l0 : List (String × DownloadRecord))
    (fs0 : List (String × String)) : FetchState :=
  ⟨l0, l0, fs0, [], 0, 0, []⟩

/-- `main` of `index.js` from the start of the loop: run the loop, then
`saveLog` (the single durable ledger write of the run, line 260), then
produce the `_summary.json` report. -/
def fetchRun (env : FetchEnv) (l0 : List (String × DownloadRecord))
    (fs0 : List (String × String)) (videos : List Video) :
    Except FetchAbort (FetchState × FetchSummary) :=
  match fetchLoop env videos (initFetchState l0 fs0) with
  | .error a => .error a
  | .ok s =>
    let s := { s with durableLog := s.memLog }
    .ok (s, ⟨videos.length, s.skipped, s.newDownloads,
      (s.results.filter (·.hasTranscript)).length,
      (s.results.filter (fun r => !r.hasTranscript)).length,
      s.results⟩)

/-! ## generate-descriptions.cjs — the describe stage -/

/-- `decodeHtml` (`generate-descriptions.cjs` lines 30–41): a chain of
global string replacements (Lean's `String.replace` replaces every
occurrence, matching the JS `/g` regexes on literal patterns). -/
def decodeHtml (text : String) : String :=
  jsReplaceAll (jsReplaceAll (jsReplaceAll (jsReplaceAll (jsReplaceAll
    (jsReplaceAll (jsReplaceAll (jsReplaceAll (jsReplaceAll text
      "&amp;#39;" "'")
      "&amp;quot;" "\"")
      "&amp;gt;" ">")
      "&amp;lt;" "<")
      "&amp;amp;" "&")
      "&#39;" "'")
      "&quot;" "\"")
      "&gt;" ">")
      "&lt;" "<"

/-- JS `line.replace(/^#\s*/, '')`: strip one leading `#` and the
whitespace after it (no change when the line does not start with `#`). -/
def stripLeadingHash (s : String) : String :=
  if jsStartsWith s "#" then String.mk ((s.drop 1).data.dropWhile Char.isWhitespace) else s

/-- The title extracted from a transcript file:
`lines[0]?.replace(/^#\s*/, '').trim() || 'Unknown'`. -/
def titleOfContent (content : String) : String :=
  jsOrStr (some (jsTrim (stripLeadingHash ((jsSplitOn content "\n").headD "")))) "Unknown"

/-- The regex `PREFIX\s*(\S+)` applied after the first occurrence of a
literal `token`: skip whitespace, take the following non-whitespace run,
fail when it is empty or the token does not occur. -/
def matchAfterToken (content token : String) : Option String :=
  match jsSplitOn content token with
  | [] | [_] => none
  | parts =>
    let cand := String.mk
      (((joinTail token parts).data.dropWhile Char.isWhitespace).takeWhile
        (fun c => !c.isWhitespace))
    if cand = "" then none else some cand

/-- `content.match(/\*\*Video ID:\*\*\s*(\S+)/)` capture. -/
def videoIdOfContent (content : String) : Option String :=
  matchAfterToken content "**Video ID:**"

/-- The transcript body: `content.indexOf('## Transcript')`, then
`slice(transcriptStart + 14)` (the 13-character marker plus one more
character) and `trim()`. -/
def transcriptSection (content : String) : String :=
  match jsSplitOn content "## Transcript" with
  | [] | [_] => ""
  | parts => jsTrim ((joinTail "## Transcript" parts).drop 1)

/-- The result of `parseTranscript`
(`generate-descriptions.cjs` lines 44–60).  The `url` capture of the
source is omitted: nothing downstream reads it. -/
structure TranscriptMeta where
  title : String
  videoId : Option String
  transcript : String
deriving Repr, DecidableEq

/-- `parseTranscript` (`generate-descriptions.cjs` lines 44–60). -/
def parseTranscript (content : String) : TranscriptMeta :=
  { title := decodeHtml (titleOfContent content),
    videoId := videoIdOfContent content,
    transcript := decodeHtml (transcriptSection content) }

/-- `categorizeVideo`'s result. -/
structure Categorization where
  category : String
  tags : List String
deriving Repr, DecidableEq

/-- `tags.push(…)` guarded by a keyword test: append when the condition
holds. -/
def addTagsIf (cond : Bool) (ts : List String) (l : List String) : List String :=
  if cond then l ++ ts else l

/-- `[...new Set(tags)]`: deduplicate keeping first occurrences. -/
def dedupKeepFirst (seen : List String) : List String → List String
  | [] => []
  | x :: xs =>
    if x ∈ seen then dedupKeepFirst seen xs
    else x :: dedupKeepFirst (x :: seen) xs

/-- `categorizeVideo` (`generate-descriptions.cjs` lines 63–125):
keyword-driven category and tag selection over the lower-cased title and
the first 2000 characters of the lower-cased transcript, finished by
`[...new Set(tags)].slice(0, 5)`. -/
def categorizeVideo (title transcript : String) : Categorization :=
  let titleLower := jsToLower title
  let contentLower := jsSliceTo (jsToLower transcript) 2000
  let tags := ["miniaturepainting", "hobbypainting"]
  let category := "vlog"
  let tutorialCond := jsIncludes titleLower "how to" || jsIncludes titleLower "tutorial" ||
    jsIncludes titleLower "recipe" || jsIncludes titleLower "guide"
  let category := if tutorialCond then "tutorial" else category
  let tags := addTagsIf tutorialCond ["hobbytutorial"] tags
  let vlogCond := jsIncludes titleLower "vlog" || jsIncludes titleLower "rambl" ||
    jsIncludes titleLower "update" || jsIncludes titleLower "day "
  let category := if vlogCond then "vlog" else category
  let tags := addTagsIf vlogCond ["hobbyvlog"] tags
  let tags := addTagsIf (jsIncludes contentLower "warmachine" ||
    jsIncludes contentLower "crucible guard" ||
    jsIncludes contentLower "fifth division" ||
    jsIncludes titleLower "warmachine") ["warmachine"] tags
  let tags := addTagsIf (jsIncludes contentLower "trench crusade" ||
    jsIncludes titleLower "trench crusade") ["trenchcrusade"] tags
  let tags := addTagsIf (jsIncludes contentLower "dolmenwood" ||
    jsIncludes titleLower "dolmenwood") ["dolmenwood", "ttrpg"] tags
  let tags := addTagsIf (jsIncludes contentLower "warhammer" ||
    jsIncludes contentLower "40k" ||
    jsIncludes contentLower "old world") ["warhammer"] tags
  let tags := addTagsIf (jsIncludes contentLower "speed paint" ||
    jsIncludes contentLower "speedpaint" ||
    jsIncludes contentLower "contrast paint") ["speedpaint"] tags
  let tags := addTagsIf (jsIncludes contentLower "nmm" ||
    jsIncludes contentLower "non-metal" ||
    jsIncludes contentLower "nonmetal") ["nmm"] tags
  let tags := addTagsIf (jsIncludes contentLower "dry brush" ||
    jsIncludes contentLower "drybrush") ["drybrushing"] tags
  let tags := addTagsIf (jsIncludes contentLower "3d print" ||
    jsIncludes contentLower "resin") ["3dprinting"] tags
  let tags := addTagsIf (jsIncludes contentLower "terrain" ||
    jsIncludes contentLower "board") ["wargamingterrain"] tags
  let tags := addTagsIf (jsIncludes contentLower "airbrush") ["airbrush"] tags
  let tags := addTagsIf (jsIncludes contentLower "goblin" ||
    jsIncludes contentLower "orc") ["orcsandgoblins"] tags
  ⟨category, (dedupKeepFirst [] tags).take 5⟩

/-- Every tag `categorizeVideo` can ever push. -/
def allCategorizeTags : List String :=
  ["miniaturepainting", "hobbypainting", "hobbytutorial", "hobbyvlog",
   "warmachine", "trenchcrusade", "dolmenwood", "ttrpg", "warhammer",
   "speedpaint", "nmm", "drybrushing", "3dprinting", "wargamingterrain",
   "airbrush", "orcsandgoblins"]

/-- JS `title.replace(/\.$/, '')`: drop one trailing dot. -/
def stripTrailingDot (s : String) : String :=
  if jsEndsWith s "." then jsDropRight s 1 else s

/-- JS `….replace(/\.\.$/, '')`: drop a trailing `..`. -/
def stripTrailingTwoDots (s : String) : String :=
  if jsEndsWith s ".." then jsDropRight s 2 else s

/-- `generateSummary` (`generate-descriptions.cjs` lines 128–141).  The
source also computes a `words` prefix of the transcript that it never
uses; it is not modelled.  The `transcript` parameter is kept for the
source's signature. -/
def generateSummary (title : String) (_transcript : String) (category : String) : String :=
  let cleanTitle := stripTrailingTwoDots (stripTrailingDot title)
  if category = "tutorial" then
    "Learn " ++ jsReplaceFirst (jsToLower cleanTitle) "how to " "" ++
      " in this step-by-step hobby tutorial. Quick tips and techniques you can apply to your own miniatures today."
  else
    cleanTitle ++
      " - Join me in today's hobby session as I share tips, progress, and thoughts on miniature painting and tabletop gaming."

/-- `CHANNEL_INFO.website` (`generate-descriptions.cjs` line 9). -/
def channelWebsite : String := "https://hobbynomicon.com"

/-- The trailing hashtag line: `tags.map(t => '#' + t).join(' ')`. -/
def hashtagLine (tags : List String) : String :=
  strIntercalate " " (tags.map (fun t => "#" ++ t))

/-- `generateDescription` (`generate-descriptions.cjs` lines 144–160).
The source's `metadata` parameter is unused there and kept here for the
signature. -/
def generateDescription (_metadata : TranscriptMeta) (_category : String)
    (tags : List String) (summary : String) : String :=
  summary ++ "\n\n" ++
  "---\n" ++
  "🌐 Website & Blog: " ++ channelWebsite ++ "\n" ++
  "---\n\n" ++
  hashtagLine tags ++ "\n"

/-! ### The describe-stage run (`generate-descriptions.cjs` `main`,
lines 163–215)

Each loop iteration is wrapped in `try`/`catch` (lines 184–207), so one
step is a total function on the state; a caught error only logs.  As in
the fetch stage, `saveLog` runs once after the loop (line 212). -/

/-- A record of `log.processed`
(`generate-descriptions.cjs` lines 196–201). -/
structure ProcessedRecord where
  descriptionFile : String
  category : String
  tags : List String
  processedAt : String
deriving Repr, DecidableEq

/-- External oracles for a describe run: the outcome of `readFileSync`
per transcript filename, whether `writeFileSync` at a path succeeds
(a failure throws, caught by the per-item handler), and the clock. -/
structure DescribeEnv where
  readResult : String → Except String String
  writeOk : String → Bool
  now : String

/-- State of a describe run; `errored` is instrumentation counting
caught per-item errors (the source only logs them), `attempted` the
files that passed the ledger skip-check. -/
structure DescribeState where
  memLog : List (String × ProcessedRecord)
  durableLog : List (String × ProcessedRecord)
  artifacts : List (String × String)
  processed : Nat
  skipped : Nat
  errored : Nat
  attempted : List String
deriving Repr, DecidableEq

/-- `DESCRIPTIONS_DIR` (`generate-descriptions.cjs` line 5). -/
def descriptionsDir : String := "./descriptions"

/-- The artifact filename for a transcript file:
`file.replace('.md', '_description.txt')` (first occurrence). -/
def descriptionFilename (file : String) : String :=
  jsReplaceFirst file ".md" "_description.txt"

/-- One iteration of the describe loop
(`generate-descriptions.cjs` lines 177–208). -/
def describeStep (env : DescribeEnv) (s : DescribeState) (file : String) :
    DescribeState :=
  if (lookupEntry s.memLog file).isSome then
    { s with skipped := s.skipped + 1 }
  else
    let s := { s with attempted := s.attempted ++ [file] }
    match env.readResult file with
    | .error _ => { s with errored := s.errored + 1 }
    | .ok content =>
      let md := parseTranscript content
      let ct := categorizeVideo md.title md.transcript
      let summary := generateSummary md.title md.transcript ct.category
      let description := generateDescription md ct.category ct.tags summary
      let descFile := descriptionFilename file
      let descPath := descriptionsDir ++ "/" ++ descFile
      if env.writeOk descPath then
        { s with
          artifacts := setEntry s.artifacts descPath description,
          memLog := setEntry s.memLog file
            ⟨descFile, ct.category, ct.tags, env.now⟩,
          processed := s.processed + 1 }
      else
        { s with errored := s.errored + 1 }

/-- The run summary line (`Done! Processed: …, Skipped: …, Total: …`). -/
structure DescribeSummary where
  processed : Nat
  skipped : Nat
  total : Nat
deriving Repr, DecidableEq

/-- The state a describe run starts from. -/
def initDescribeState (l0 : List (String × ProcessedRecord))
    (fs0 : List (String × String)) : DescribeState :=
  ⟨l0, l0, fs0, 0, 0, 0, []⟩

/-- `main` of `generate-descriptions.cjs`: list the transcript directory
filtered to `.md` files (line 170), fold the loop over the candidates,
then `saveLog` (the single durable ledger write, line 212) and report. -/
def describeRun (env : DescribeEnv) (l0 : List (String × ProcessedRecord))
    (fs0 : List (String × String)) (listing : List String) :
    DescribeState × DescribeSummary :=
  let files := listing.filter (fun f => jsEndsWith f ".md")
  let s := files.foldl (describeStep env) (initDescribeState l0 fs0)
  let s := { s with durableLog := s.memLog }
  (s, ⟨s.processed, s.skipped, files.length⟩)

/-! ## push-descriptions.cjs — the publish stage -/

/-- A YouTube video `snippet` as read back by `videos.list`.  `Option`
marks key presence.  Besides the four keys the pipeline touches
(`title`, `description`, `categoryId`, `tags`), the remote snippet
carries further fields not managed by the pipeline; `publishedAt` and
`defaultLanguage` represent them here. -/
structure Snippet where
  title : Option String
  description : Option String
  categoryId : Option String
  tags : Option (List String)
  publishedAt : Option String
  defaultLanguage : Option String
deriving Repr, DecidableEq

/-- The request body's `snippet` built by `updateVideoDescription`
(`push-descriptions.cjs` lines 130–141): keeps `title` and `categoryId`,
replaces `description`, sends `currentSnippet.tags || []`, and carries no
other key. -/
def updateRequestSnippet (currentSnippet : Snippet) (newDescription : String) :
    Snippet :=
  { title := currentSnippet.title,
    description := some newDescription,
    categoryId := currentSnippet.categoryId,
    tags := some (currentSnippet.tags.getD []),
    publishedAt := none,
    defaultLanguage := none }

/-- `updateVideoDescription` (`push-descriptions.cjs` lines 121–144):
read the current remote snippet (`getVideoDetails`), throw when the video
is inaccessible, otherwise issue the update.  The model returns the
snippet sent in the update request (the source returns the API
response). -/
def updateVideoDescription (remote : String → Option Snippet)
    (videoId : String) (newDescription : String) : Except String Snippet :=
  match remote videoId with
  | none => .error ("Video " ++ videoId ++ " not found or not accessible")
  | some currentSnippet => .ok (updateRequestSnippet currentSnippet newDescription)

/-- A record of `pushLog.pushed` (`push-descriptions.cjs` lines 231–236). -/
structure PushRecord where
  title : String
  transcript : String
  descriptionFile : String
  pushedAt : String
deriving Repr, DecidableEq

/-- One element of the `updates` list
(`push-descriptions.cjs` lines 175–181). -/
structure UpdateItem where
  videoId : String
  title : String
  transcript : String
  descriptionFile : String
  description : String
deriving Repr, DecidableEq

/-- CLI flags of the publish stage (`push-descriptions.cjs` lines 41–44). -/
structure PushFlags where
  dryRun : Bool
  listOnly : Bool
  singleVideo : Option String
deriving Repr, DecidableEq

/-- External oracles for a publish run: whether the token file and a
client-secret file exist, the transcript directory listing and file
contents, description-file existence and contents, the remote snippet
served by `videos.list`, whether a `videos.update` call succeeds, and
the clock. -/
structure PushEnv where
  tokenExists : Bool
  credentialsExists : Bool
  transcriptFiles : List String
  transcriptContentOf : String → String
  descriptionExists : String → Bool
  descriptionContentOf : String → String
  remoteSnippet : String → Option Snippet
  updateOk : String → Bool
  now : String

/-- `TRANSCRIPTS_DIR` of the publish stage (`push-descriptions.cjs`
line 19). -/
def pushTranscriptsDir : String := "./transcripts"

/-- `buildUpdateList` (`push-descriptions.cjs` lines 147–185): scan the
`.md` transcripts, extract each video id, skip ids already in the push
ledger (unless `--video` is set), restrict to the `--video` id when
given, and keep only items whose description artifact exists. -/
def buildUpdateList (env : PushEnv) (flags : PushFlags)
    (pushLog : List (String × PushRecord)) : List UpdateItem :=
  (env.transcriptFiles.filter (fun f => jsEndsWith f ".md")).filterMap fun file =>
    match videoIdOfContent (env.transcriptContentOf file) with
    | none => none
    | some videoId =>
      if (lookupEntry pushLog videoId).isSome && flags.singleVideo.isNone then none
      else if flags.singleVideo.isSome && flags.singleVideo != some videoId then none
      else
        let descFile := descriptionFilename file
        let descPath := descriptionsDir ++ "/" ++ descFile
        if env.descriptionExists descPath then
          some ⟨videoId, titleOfContent (env.transcriptContentOf file),
            file, descFile, env.descriptionContentOf descPath⟩
        else none

/-- Observable events of a publish run, in order. -/
inductive PushEvent where
  /-- `buildUpdateList` ran (catalog enumeration); carries the number of
  pending items it found. -/
  | enumerate (pending : Nat)
  /-- `getAuthClient` exited fatally: no token file. -/
  | fatalNoTokens
  /-- `getAuthClient` exited fatally: no client-secret file. -/
  | fatalNoCredentials
  /-- `--list` printed an item. -/
  | listed (videoId : String)
  /-- `--dry-run` skipped an item's write. -/
  | dryRunSkip (videoId : String)
  /-- `videos.list` was called for an item. -/
  | remoteRead (videoId : String)
  /-- `videos.update` was called for an item. -/
  | remoteWrite (videoId : String)
  /-- `savePushLog` persisted the ledger (per-item flush). -/
  | ledgerFlush (videoId : String)
  /-- a per-item error was caught and logged. -/
  | itemError (videoId : String)
deriving Repr, DecidableEq

/-- The mutable state of the publish loop. -/
structure PushLoopState where
  events : List PushEvent
  memLog : List (String × PushRecord)
  durableLog : List (String × PushRecord)
  successCount : Nat
  errorCount : Nat
deriving Repr, DecidableEq

/-- One iteration of the publish loop
(`push-descriptions.cjs` lines 217–253): dry-run short-circuit, then the
read–modify–write pair inside `try`/`catch`; on success the ledger entry
is recorded and `savePushLog` flushes it durably before the next item. -/
def pushItemStep (env : PushEnv) (flags : PushFlags)
    (st : PushLoopState) (u : UpdateItem) : PushLoopState :=
  if flags.dryRun then
    { st with events := st.events ++ [PushEvent.dryRunSkip u.videoId],
              successCount := st.successCount + 1 }
  else
    let st := { st with events := st.events ++ [PushEvent.remoteRead u.videoId] }
    match env.remoteSnippet u.videoId with
    | none =>
      { st with events := st.events ++ [PushEvent.itemError u.videoId],
                errorCount := st.errorCount + 1 }
    | some _ =>
      let st := { st with events := st.events ++ [PushEvent.remoteWrite u.videoId] }
      if env.updateOk u.videoId then
        let memLog' := setEntry st.memLog u.videoId
          ⟨u.title, u.transcript, u.descriptionFile, env.now⟩
        { st with
          events := st.events ++ [PushEvent.ledgerFlush u.videoId],
          memLog := memLog',
          durableLog := memLog',
          successCount := st.successCount + 1 }
      else
        { st with events := st.events ++ [PushEvent.itemError u.videoId],
                  errorCount := st.errorCount + 1 }

/-- The outcome of a publish run. -/
structure PushOutcome where
  events : List PushEvent
  memLog : List (String × PushRecord)
  durableLog : List (String × PushRecord)
  successCount : Nat
  errorCount : Nat
  /-- the final `=== Summary ===` block was printed -/
  summaryPrinted : Bool
  /-- the run ended in `process.exit(1)` -/
  fatal : Bool
deriving Repr, DecidableEq

/-- `main` of `push-descriptions.cjs` (lines 187–259): load the push
ledger, build the update list (catalog enumeration), return early when
it is empty or `--list` was given, *then* acquire credentials
(`getAuthClient`, fatal when the token or client-secret file is
missing), then run the per-item loop and print the summary. -/
def pushMain (env : PushEnv) (flags : PushFlags)
    (l0 : List (String × PushRecord)) : PushOutcome :=
  let updates := buildUpdateList env flags l0
  let ev0 : List PushEvent := [.enumerate updates.length]
  if updates.length = 0 then
    ⟨ev0, l0, l0, 0, 0, false, false⟩
  else if flags.listOnly then
    ⟨ev0 ++ updates.map (fun u => PushEvent.listed u.videoId), l0, l0, 0, 0, false, false⟩
  else if !env.tokenExists then
    ⟨ev0 ++ [PushEvent.fatalNoTokens], l0, l0, 0, 0, false, true⟩
  else if !env.credentialsExists then
    ⟨ev0 ++ [PushEvent.fatalNoCredentials], l0, l0, 0, 0, false, true⟩
  else
    let st := updates.foldl (pushItemStep env flags) ⟨ev0, l0, l0, 0, 0⟩
    ⟨st.events, st.memLog, st.durableLog, st.successCount, st.errorCount,
      true, false⟩

/-! ## The MCP server's `generate_description` tool
(`transcript-mcp`, lines 597–648 of the server with description tools) -/

/-- `CHANNEL_INFO.website` of the MCP server. -/
def mcpChannelWebsite : String := "https://hobbynomicon.com"

/-- JS `t.replace(/\s+/g, '')`: remove all whitespace. -/
def stripAllWhitespace (s : String) : String :=
  String.mk (s.toList.filter (fun c => !c.isWhitespace))

/-- One chapter timestamp passed to the tool. -/
structure McpTimestamp where
  time : String
  label : String
deriving Repr, DecidableEq

/-- The hashtag line of the tool for supplied tags: cap at 3 hashtags
(`args.tags.slice(0, 3)`), strip whitespace and lower-case each
(`t.replace(/\s+/g, '').toLowerCase()`), join with spaces. -/
def mcpHashtagLine (tags : List String) : String :=
  strIntercalate " "
    ((tags.take 3).map (fun t => "#" ++ jsToLower (stripAllWhitespace t)))

/-- The hashtag block of the tool, falling back to two defaults when no
tags are supplied. -/
def mcpHashtagBlock (tags : Option (List String)) : String :=
  match tags with
  | some l =>
    if l.length > 0 then mcpHashtagLine l ++ "\n"
    else "#miniaturepainting #hobbypainting\n"
  | none => "#miniaturepainting #hobbypainting\n"

/-- The `generate_description` tool body: summary, optional timestamp
block, link block, trailing hashtag block. -/
def mcpGenerateDescription (summary : String)
    (timestamps : Option (List McpTimestamp))
    (tags : Option (List String)) : String :=
  summary ++ "\n\n" ++
  (match timestamps with
   | some ts =>
     if ts.length > 0 then
       "TIMESTAMPS\n" ++
         strJoin (ts.map (fun t => t.time ++ " " ++ t.label ++ "\n")) ++ "\n"
     else ""
   | none => "") ++
  "---\n" ++
  "🌐 Website & Blog: " ++ mcpChannelWebsite ++ "\n" ++
  "---\n\n" ++
  mcpHashtagBlock tags

end Transcriptor

namespace Transcriptor

/-! ## Shared lemmas -/

theorem lookupEntry_setEntry {α : Type} (l : List (String × α)) (k : String) (v : α) :
    lookupEntry (setEntry l k v) k = some v := by
  unfold lookupEntry setEntry
  split
  · rename_i hfound
    induction l with
    | nil => simp at hfound
    | cons p rest ih =>
      by_cases hp : p.1 == k
      · simp [List.find?, hp]
      · simp only [List.map_cons, hp, if_neg]
        rw [List.find?]
        simp only [hp, Bool.false_eq_true]
        simp only [List.find?_cons, hp] at hfound
        have := ih (by simpa using hfound)
        simpa [hp] using this
  · rw [List.find?_append]
    rename_i hnone
    rw [Option.not_isSome_iff_eq_none] at hnone
    simp [hnone, List.find?]

theorem mem_dedupKeepFirst {seen l : List String} {x : String}
    (h : x ∈ dedupKeepFirst seen l) : x ∈ l := by
  induction l generalizing seen with
  | nil => simp [dedupKeepFirst] at h
  | cons y ys ih =>
    unfold dedupKeepFirst at h
    split at h
    · exact List.mem_cons_of_mem _ (ih h)
    · rcases List.mem_cons.mp h with h | h
      · exact h ▸ List.mem_cons_self _ _
      · exact List.mem_cons_of_mem _ (ih h)

theorem mem_addTagsIf {c : Bool} {ts l : List String} {x : String}
    (h : x ∈ addTagsIf c ts l) : x ∈ l ∨ x ∈ ts := by
  unfold addTagsIf at h
  split at h
  · exact (List.mem_append.mp h)
  · exact Or.inl h

/-! ## Claim C10 — transcript retrieval is total over outcomes -/

/-- Claim C10: in the fetch stage, transcript retrieval is total over
outcomes: any exception of the external fetch, a null result, and an
empty segment list all yield the same `none` (Unavailable) result, and a
non-empty segment list is returned as-is — so a transient retrieval error
is indistinguishable from genuinely missing captions and `getTranscript`
never surfaces a per-item error. -/
theorem claim_C10_transcript_retrieval_total :
    (∀ e : String, getTranscript (.error e) = none) ∧
    getTranscript (.ok none) = none ∧
    getTranscript (.ok (some [])) = none ∧
    (∀ t : List TranscriptItem, t ≠ [] → getTranscript (.ok (some t)) = some t) := by
  refine ⟨fun e => rfl, rfl, rfl, fun t ht => ?_⟩
  simp [getTranscript, List.length_eq_zero, ht]

/-- Witness for C10 at concrete inputs. -/
theorem claim_C10_witness :
    getTranscript (.error "network error") = none ∧
    getTranscript (.ok (some [⟨some "hello", none, none⟩])) =
      some [⟨some "hello", none, none⟩] :=
  ⟨claim_C10_transcript_retrieval_total.1 "network error",
   claim_C10_transcript_retrieval_total.2.2.2 _ (by simp)⟩

/-! ## Claim C3 — the publish write-back echoes only some fields -/

/-- A remote snippet carrying fields the pipeline does not manage. -/
def c3RemoteSnippet : Snippet :=
  { title := some "Old Title",
    description := some "old description",
    categoryId := some "22",
    tags := some ["a"],
    publishedAt := some "2024-01-01T00:00:00Z",
    defaultLanguage := some "en" }

/-- Counterexample to C3: the claim says every field of the previously
read remote metadata other than the description is echoed back
unchanged; but the request built by `updateVideoDescription` carries only
`title`, `description`, `categoryId` and `tags` — here the remote
`publishedAt` and `defaultLanguage` are read back as present and sent as
absent. -/
theorem claim_C3_counterexample :
    updateVideoDescription (fun _ => some c3RemoteSnippet) "vid" "new description" =
      .ok (updateRequestSnippet c3RemoteSnippet "new description") ∧
    c3RemoteSnippet.publishedAt = some "2024-01-01T00:00:00Z" ∧
    (updateRequestSnippet c3RemoteSnippet "new description").publishedAt = none ∧
    c3RemoteSnippet.defaultLanguage = some "en" ∧
    (updateRequestSnippet c3RemoteSnippet "new description").defaultLanguage = none :=
  ⟨rfl, rfl, rfl, rfl, rfl⟩

/-- Claim C3 as amended: the write-back replaces the description and
echoes exactly the previously read `title`, `categoryId` and `tags`
(absent tags becoming the empty list); the other fields of the read
remote metadata are not included in the request. -/
theorem claim_C3_update_request_fields (remote : String → Option Snippet)
    (videoId newDescription : String) (currentSnippet : Snippet)
    (hread : remote videoId = some currentSnippet) :
    updateVideoDescription remote videoId newDescription =
      .ok (updateRequestSnippet currentSnippet newDescription) ∧
    (updateRequestSnippet currentSnippet newDescription).description = some newDescription ∧
    (updateRequestSnippet currentSnippet newDescription).title = currentSnippet.title ∧
    (updateRequestSnippet currentSnippet newDescription).categoryId = currentSnippet.categoryId ∧
    (updateRequestSnippet currentSnippet newDescription).tags =
      some (currentSnippet.tags.getD []) ∧
    (updateRequestSnippet currentSnippet newDescription).publishedAt = none ∧
    (updateRequestSnippet currentSnippet newDescription).defaultLanguage = none := by
  refine ⟨?_, rfl, rfl, rfl, rfl, rfl, rfl⟩
  simp [updateVideoDescription, hread]

/-- Witness for the amended C3 at a concrete remote snippet. -/
theorem claim_C3_witness :
    updateVideoDescription (fun _ => some ⟨some "T", some "d", some "1", none, none, none⟩)
        "v" "new" =
      .ok (updateRequestSnippet ⟨some "T", some "d", some "1", none, none, none⟩ "new") ∧
    (updateRequestSnippet ⟨some "T", some "d", some "1", none, none, none⟩ "new").tags =
      some [] :=
  ⟨(claim_C3_update_request_fields (fun _ => some ⟨some "T", some "d", some "1", none, none, none⟩)
      "v" "new" ⟨some "T", some "d", some "1", none, none, none⟩ rfl).1,
   (claim_C3_update_request_fields (fun _ => some ⟨some "T", some "d", some "1", none, none, none⟩)
      "v" "new" ⟨some "T", some "d", some "1", none, none, none⟩ rfl).2.2.2.2.1⟩

/-! ## Claim C1 — ledger flush discipline -/

/-- A fetch environment in which transcripts exist and all writes
succeed. -/
def c1Env : FetchEnv :=
  { transcriptOf := fun _ => .ok (some [⟨some "hello world", none, none⟩]),
    writeOk := fun _ => true,
    formatDate := fun d => d,
    now := "2025-01-01T00:00:00.000Z" }

/-- The first candidate of a two-video catalog. -/
def c1Video : Video := ⟨"vid1", "First Video", "2024-05-01", ""⟩

/-- Counterexample to C1: in the fetch stage, after the loop body
completes one item (artifact written, completion recorded in the
in-memory ledger) and before the Stage Runner proceeds to the next item,
the durable ledger is still empty — nothing was persisted.  A process
kill here loses the ledger entry even though the artifact exists. -/
theorem claim_C1_counterexample :
    (fetchStep c1Env (initFetchState [] []) c1Video).map
        (fun s => ((lookupEntry s.memLog "vid1").isSome,
                   s.artifacts.length, s.durableLog)) =
      .ok (true, 1, []) := by
  rfl

/-- Claim C1 as amended: only the publish stage persists the ledger
immediately after each completed item; the fetch and describe stages
record completions in memory only and write the durable ledger once,
after the loop — so a mid-loop kill in those stages loses all of the
run's ledger entries although the corresponding artifacts exist.

Conjuncts: (1) a fetch-loop iteration never changes the durable ledger;
(2) neither does a describe-loop iteration; (3) a completed fetch run
persists the in-memory ledger at its end; (4) so does a completed
describe run; (5) a successful publish-stage iteration flushes the
ledger, with the new entry, before the next item. -/
theorem claim_C1_flush_discipline :
    (∀ (env : FetchEnv) (s : FetchState) (v : Video) (s' : FetchState),
      fetchStep env s v = .ok s' → s'.durableLog = s.durableLog) ∧
    (∀ (env : DescribeEnv) (s : DescribeState) (f : String),
      (describeStep env s f).durableLog = s.durableLog) ∧
    (∀ (env : FetchEnv) (l0 : List (String × DownloadRecord))
       (fs0 : List (String × String)) (videos : List Video)
       (s : FetchState) (sum : FetchSummary),
      fetchRun env l0 fs0 videos = .ok (s, sum) → s.durableLog = s.memLog) ∧
    (∀ (env : DescribeEnv) (l0 : List (String × ProcessedRecord))
       (fs0 : List (String × String)) (files : List String),
      (describeRun env l0 fs0 files).1.durableLog =
        (describeRun env l0 fs0 files).1.memLog) ∧
    (∀ (env : PushEnv) (flags : PushFlags) (st : PushLoopState) (u : UpdateItem),
      flags.dryRun = false → (env.remoteSnippet u.videoId).isSome →
      env.updateOk u.videoId = true →
      (pushItemStep env flags st u).durableLog =
        setEntry st.memLog u.videoId ⟨u.title, u.transcript, u.descriptionFile, env.now⟩ ∧
      (lookupEntry (pushItemStep env flags st u).durableLog u.videoId).isSome) := by
  refine ⟨?_, ?_, ?_, ?_, ?_⟩
  · intro env s v s' h
    unfold fetchStep at h
    split at h
    · cases h; rfl
    · split at h
      · dsimp only at h
        split at h
        · cases h; rfl
        · cases h
      · cases h; rfl
  · intro env s f
    unfold describeStep
    split
    · rfl
    · split
      · rfl
      · dsimp only
        split
        · rfl
        · rfl
  · intro env l0 fs0 videos s sum h
    unfold fetchRun at h
    split at h
    · cases h
    · cases h; rfl
  · intro env l0 fs0 files
    rfl
  · intro env flags st u hdry hsnip hok
    unfold pushItemStep
    rw [hdry]
    simp only [Bool.false_eq_true, if_false]
    obtain ⟨snip, hs⟩ := Option.isSome_iff_exists.mp hsnip
    rw [hs]
    dsimp only
    rw [hok]
    simp only [if_true]
    refine ⟨trivial, ?_⟩
    simp [lookupEntry_setEntry]

/-- Witness for the amended C1 at concrete inputs. -/
theorem claim_C1_witness :
    ((describeStep ⟨fun _ => .ok "# T\n\n## Transcript\nbody", fun _ => true, "t"⟩
        (initDescribeState [] []) "T.md").durableLog = [] ) ∧
    ((pushItemStep
        ⟨true, true, [], fun _ => "", fun _ => true, fun _ => "",
         fun _ => some ⟨some "T", some "d", some "1", none, none, none⟩,
         fun _ => true, "t"⟩
        ⟨false, false, none⟩ ⟨[], [], [], 0, 0⟩
        ⟨"v1", "T", "T.md", "T_description.txt", "d"⟩).durableLog =
      setEntry [] "v1" ⟨"T", "T.md", "T_description.txt", "t"⟩) :=
  ⟨claim_C1_flush_discipline.2.1 _ (initDescribeState [] []) "T.md",
   (claim_C1_flush_discipline.2.2.2.2
      ⟨true, true, [], fun _ => "", fun _ => true, fun _ => "",
       fun _ => some ⟨some "T", some "d", some "1", none, none, none⟩,
       fun _ => true, "t"⟩
      ⟨false, false, none⟩ ⟨[], [], [], 0, 0⟩
      ⟨"v1", "T", "T.md", "T_description.txt", "d"⟩ rfl rfl rfl).1⟩

/-! ## Claim C8 — artifact path determinism -/

/-- Two fetch-stage items sharing the same key (video id) but differing
in title. -/
def c8VideoA : Video := ⟨"shared-id", "Title One", "", ""⟩

/-- Same key as `c8VideoA`, different title. -/
def c8VideoB : Video := ⟨"shared-id", "Title Two", "", ""⟩

/-- Counterexample to C8: in the fetch stage the ledger key is the video
id, but the artifact path is computed from the *title*
(`sanitizeFilename(video.title) + '.md'`), so the path is not a function
of the key: the same key with a changed title is written to a different
path. -/
theorem claim_C8_counterexample :
    c8VideoA.videoId = c8VideoB.videoId ∧
    fetchArtifactPath c8VideoA = "./transcripts/Title_One.md" ∧
    fetchArtifactPath c8VideoB = "./transcripts/Title_Two.md" ∧
    fetchArtifactPath c8VideoA ≠ fetchArtifactPath c8VideoB := by
  refine ⟨rfl, rfl, rfl, ?_⟩
  decide

/-- Claim C8 as amended: the fetch-stage artifact path is a
deterministic function of the item's *title* (and the describe-stage
path of its source filename, which is that stage's key), and a write for
an item overwrites the artifact at that path in place, so after a
(re)processing step the artifact at the item's path holds exactly the
latest run's output. -/
theorem claim_C8_artifact_path_determinism :
    (∀ v w : Video, v.title = w.title → fetchArtifactPath v = fetchArtifactPath w) ∧
    (∀ env : FetchEnv, ∀ s : FetchState, ∀ v : Video, ∀ t : List TranscriptItem,
      ∀ s' : FetchState,
      lookupEntry s.memLog v.videoId = none →
      getTranscript (env.transcriptOf v.videoId) = some t →
      env.writeOk (fetchArtifactPath v) = true →
      fetchStep env s v = .ok s' →
      lookupEntry s'.artifacts (fetchArtifactPath v) =
        some (transcriptContent env v t)) := by
  constructor
  · intro v w h
    unfold fetchArtifactPath fetchArtifactFilename
    rw [h]
  · intro env s v t s' hmem havail hwrite h
    unfold fetchStep at h
    rw [hmem] at h
    simp only [Option.isSome_none, Bool.false_eq_true, if_false] at h
    rw [havail] at h
    dsimp only at h
    rw [show fetchOutputDir ++ "/" ++ fetchArtifactFilename v = fetchArtifactPath v from rfl,
      hwrite] at h
    simp only [if_true] at h
    cases h
    exact lookupEntry_setEntry _ _ _

/-- Witness for the amended C8 at concrete inputs. -/
theorem claim_C8_witness :
    fetchArtifactPath ⟨"idA", "Same Title", "", ""⟩ =
      fetchArtifactPath ⟨"idB", "Same Title", "p", "d"⟩ ∧
    lookupEntry
      ((fetchStep c1Env (initFetchState [] [("./transcripts/First_Video.md", "stale")])
          c1Video).toOption.getD (initFetchState [] [])).artifacts
      (fetchArtifactPath c1Video) =
      some (transcriptContent c1Env c1Video [⟨some "hello world", none, none⟩]) := by
  constructor
  · exact claim_C8_artifact_path_determinism.1 _ _ rfl
  · have h := claim_C8_artifact_path_determinism.2 c1Env
      (initFetchState [] [("./transcripts/First_Video.md", "stale")]) c1Video
      [⟨some "hello world", none, none⟩]
      ((fetchStep c1Env (initFetchState [] [("./transcripts/First_Video.md", "stale")])
          c1Video).toOption.getD (initFetchState [] []))
      rfl rfl rfl
    rw [h rfl]

/-! ## Claim C7 — pagination of the external catalog source -/

theorem pushPageItems_none_eq (acc items : List Video) :
    pushPageItems none acc items = .inr (acc ++ items) := by
  induction items generalizing acc with
  | nil => simp [pushPageItems]
  | cons v vs ih =>
    rw [pushPageItems, ih]
    simp

theorem pushPageItems_inr (acc items : List Video) (m : Nat)
    (h : (acc ++ items).length < m) :
    pushPageItems (some m) acc items = .inr (acc ++ items) := by
  induction items generalizing acc with
  | nil => simp [pushPageItems]
  | cons v vs ih =>
    have hcond : ¬ ((m != 0 && decide (m ≤ (acc ++ [v]).length)) = true) := by
      simp only [Bool.and_eq_true, bne_iff_ne, ne_eq, decide_eq_true_eq, not_and]
      intro _
      simp only [List.length_append, List.length_cons, List.length_nil] at h ⊢
      omega
    rw [pushPageItems, if_neg hcond]
    have h' : ((acc ++ [v]) ++ vs).length < m := by simpa using h
    rw [ih (acc ++ [v]) h']
    simp

theorem pushPageItems_inl (acc items : List Video) (m : Nat)
    (hacc : acc.length < m) (h : m ≤ (acc ++ items).length) :
    pushPageItems (some m) acc items = .inl ((acc ++ items).take m) := by
  induction items generalizing acc with
  | nil =>
    simp only [List.append_nil] at h
    omega
  | cons v vs ih =>
    by_cases hv : m ≤ (acc ++ [v]).length
    · have hcond : (m != 0 && decide (m ≤ (acc ++ [v]).length)) = true := by
        simp only [Bool.and_eq_true, bne_iff_ne, ne_eq, decide_eq_true_eq]
        exact ⟨by omega, hv⟩
      rw [pushPageItems, if_pos hcond]
      have : (acc ++ [v]).take m = (acc ++ v :: vs).take m := by
        rw [show acc ++ v :: vs = (acc ++ [v]) ++ vs from by simp,
          List.take_append_of_le_length hv]
      rw [this]
    · have hcond : ¬ ((m != 0 && decide (m ≤ (acc ++ [v]).length)) = true) := by
        simp only [Bool.and_eq_true, bne_iff_ne, ne_eq, decide_eq_true_eq, not_and]
        intro _
        exact hv
      rw [pushPageItems, if_neg hcond]
      have hacc' : (acc ++ [v]).length < m := by
        simp only [List.length_append, List.length_cons, List.length_nil] at hv ⊢
        omega
      have h' : m ≤ ((acc ++ [v]) ++ vs).length := by simpa using h
      rw [ih (acc ++ [v]) hacc' h']
      simp

theorem collectPlaylistVideos_none (pages : List PlaylistPage) (acc : List Video)
    (hchain : tokenChained pages = true) :
    collectPlaylistVideos none pages acc = acc ++ pagesFlatten pages := by
  induction pages generalizing acc with
  | nil => simp [collectPlaylistVideos, pagesFlatten]
  | cons p rest ih =>
    rw [collectPlaylistVideos, pushPageItems_none_eq]
    dsimp only
    cases rest with
    | nil =>
      have hp : p.hasNextPageToken = false := by simpa [tokenChained] using hchain
      rw [if_neg (by simp [hp])]
      simp [pagesFlatten]
    | cons q qs =>
      have hc : p.hasNextPageToken = true ∧ tokenChained (q :: qs) = true := by
        simpa [tokenChained] using hchain
      rw [if_pos hc.1, ih _ hc.2]
      simp [pagesFlatten]

theorem collectPlaylistVideos_some (pages : List PlaylistPage) (acc : List Video)
    (m : Nat) (hchain : tokenChained pages = true) (hacc : acc.length < m) :
    collectPlaylistVideos (some m) pages acc = (acc ++ pagesFlatten pages).take m := by
  induction pages generalizing acc with
  | nil =>
    rw [collectPlaylistVideos]
    rw [show pagesFlatten [] = [] from rfl, List.append_nil,
      List.take_of_length_le (Nat.le_of_lt hacc)]
  | cons p rest ih =>
    rw [collectPlaylistVideos]
    by_cases hsat : m ≤ (acc ++ p.items).length
    · rw [pushPageItems_inl acc p.items m hacc hsat]
      dsimp only
      rw [show acc ++ pagesFlatten (p :: rest) = (acc ++ p.items) ++ pagesFlatten rest from by
        simp [pagesFlatten],
        List.take_append_of_le_length hsat]
    · have hlt : (acc ++ p.items).length < m := by omega
      rw [pushPageItems_inr acc p.items m hlt]
      dsimp only
      cases rest with
      | nil =>
        have hp : p.hasNextPageToken = false := by simpa [tokenChained] using hchain
        rw [if_neg (by simp [hp])]
        rw [show pagesFlatten [p] = p.items from by simp [pagesFlatten]]
        rw [List.take_of_length_le (Nat.le_of_lt hlt)]
      | cons q qs =>
        have hc : p.hasNextPageToken = true ∧ tokenChained (q :: qs) = true := by
          simpa [tokenChained] using hchain
        rw [if_pos hc.1, ih _ hc.2 hlt]
        simp [pagesFlatten]

theorem collectPlaylistVideos_early_stop (pre rest : List PlaylistPage)
    (acc : List Video) (m : Nat) (hacc : acc.length < m)
    (hsat : m ≤ (acc ++ pagesFlatten pre).length) :
    collectPlaylistVideos (some m) (pre ++ rest) acc =
      collectPlaylistVideos (some m) pre acc := by
  induction pre generalizing acc with
  | nil =>
    simp only [pagesFlatten, List.flatMap_nil, List.append_nil] at hsat
    omega
  | cons p pre' ih =>
    rw [List.cons_append, collectPlaylistVideos, collectPlaylistVideos]
    by_cases hp : m ≤ (acc ++ p.items).length
    · rw [pushPageItems_inl acc p.items m hacc hp]
    · have hlt : (acc ++ p.items).length < m := by omega
      rw [pushPageItems_inr acc p.items m hlt]
      dsimp only
      cases hq : p.hasNextPageToken with
      | false => simp
      | true =>
        simp only [if_true]
        exact ih _ hlt (by
          rw [show acc ++ pagesFlatten (p :: pre') =
            (acc ++ p.items) ++ pagesFlatten pre' from by simp [pagesFlatten]] at hsat
          exact hsat)

/-- Claim C7: the external-paginated catalog source requests pages with
`maxResults = 50`, follows the continuation token until absent (returning
every served item in catalog order), and, when a positive maximum count
is supplied, returns exactly the first `min(maximum, total)` items and
stops consuming pages as soon as the maximum is satisfied.  (A supplied
maximum of `0` is falsy in the source's truthiness test and behaves like
no maximum.) -/
theorem claim_C7_pagination :
    playlistItemsPageSize = 50 ∧
    (∀ pages : List PlaylistPage, tokenChained pages = true →
      getPlaylistVideos pages none = pagesFlatten pages) ∧
    (∀ (pages : List PlaylistPage) (m : Nat), tokenChained pages = true → 0 < m →
      getPlaylistVideos pages (some m) = (pagesFlatten pages).take m) ∧
    (∀ (pre rest : List PlaylistPage) (m : Nat), 0 < m →
      m ≤ (pagesFlatten pre).length →
      getPlaylistVideos (pre ++ rest) (some m) = getPlaylistVideos pre (some m)) := by
  refine ⟨rfl, ?_, ?_, ?_⟩
  · intro pages hchain
    unfold getPlaylistVideos
    rw [collectPlaylistVideos_none pages [] hchain]
    simp
  · intro pages m hchain hm
    unfold getPlaylistVideos
    rw [collectPlaylistVideos_some pages [] m hchain (by simpa using hm)]
    simp
  · intro pre rest m hm hsat
    unfold getPlaylistVideos
    exact collectPlaylistVideos_early_stop pre rest [] m (by simpa using hm)
      (by simpa using hsat)

/-- A three-item served page sequence for the C7 witness. -/
def c7Pages : List PlaylistPage :=
  [⟨[⟨"v1", "A", "", ""⟩, ⟨"v2", "B", "", ""⟩], true⟩, ⟨[⟨"v3", "C", "", ""⟩], false⟩]

/-- Witness for C7 at concrete pages: full collection, truncation to 2,
and early stop after the first page when 1 item suffices. -/
theorem claim_C7_witness :
    getPlaylistVideos c7Pages none = pagesFlatten c7Pages ∧
    getPlaylistVideos c7Pages (some 2) = (pagesFlatten c7Pages).take 2 ∧
    getPlaylistVideos ([⟨[⟨"v1", "A", "", ""⟩, ⟨"v2", "B", "", ""⟩], true⟩] ++
        [⟨[⟨"v3", "C", "", ""⟩], false⟩]) (some 1) =
      getPlaylistVideos [⟨[⟨"v1", "A", "", ""⟩, ⟨"v2", "B", "", ""⟩], true⟩] (some 1) :=
  ⟨claim_C7_pagination.2.1 c7Pages (by decide),
   claim_C7_pagination.2.2.1 c7Pages 2 (by decide) (by decide),
   claim_C7_pagination.2.2.2 [⟨[⟨"v1", "A", "", ""⟩, ⟨"v2", "B", "", ""⟩], true⟩]
     [⟨[⟨"v3", "C", "", ""⟩], false⟩] 1 (by decide) (by decide)⟩

/-! ## Claim C9 — the trailing hashtag line -/

theorem mem_addTagsIf_iff {c : Bool} {ts l : List String} {x : String} :
    x ∈ addTagsIf c ts l ↔ x ∈ l ∨ (c = true ∧ x ∈ ts) := by
  unfold addTagsIf
  split <;> simp_all

/-- Everything before the hashtag line of a describe-stage artifact. -/
def descriptionPreamble (summary : String) : String :=
  summary ++ "\n\n" ++
  "---\n" ++
  "🌐 Website & Blog: " ++ channelWebsite ++ "\n" ++
  "---\n\n"

/-- Everything before the hashtag block of an MCP-tool description. -/
def mcpPreamble (summary : String) (timestamps : Option (List McpTimestamp)) : String :=
  summary ++ "\n\n" ++
  (match timestamps with
   | some ts =>
     if ts.length > 0 then
       "TIMESTAMPS\n" ++
         strJoin (ts.map (fun t => t.time ++ " " ++ t.label ++ "\n")) ++ "\n"
     else ""
   | none => "") ++
  "---\n" ++
  "🌐 Website & Blog: " ++ mcpChannelWebsite ++ "\n" ++
  "---\n\n"

theorem addTagsIf_forall {S : List String} {c : Bool} {ts l : List String}
    (hl : ∀ x ∈ l, x ∈ S) (hts : ∀ x ∈ ts, x ∈ S) :
    ∀ x ∈ addTagsIf c ts l, x ∈ S := by
  intro x hx
  rcases mem_addTagsIf hx with h | h
  exacts [hl x h, hts x h]

theorem categorizeVideo_tags_allowed (title transcript : String) :
    ∀ t ∈ (categorizeVideo title transcript).tags, t ∈ allCategorizeTags := by
  unfold categorizeVideo
  dsimp only
  intro t ht
  have h2 := mem_dedupKeepFirst (List.take_subset _ _ ht)
  clear ht
  revert h2
  revert t
  iterate 13 refine addTagsIf_forall ?_ (by decide)
  decide

/-- A transcript artifact whose title and body trip five tag rules. -/
def c9Content : String := "# how to vlog\n\n## Transcript\nwarmachine"

set_option maxRecDepth 2000 in
theorem c9_parse_eval :
    parseTranscript c9Content = ⟨"how to vlog", none, "warmachine"⟩ := by
  decide

set_option maxRecDepth 2000 in
/-- Counterexample to C9: this describe-stage input produces an artifact
whose trailing hashtag line holds five hashtags — the stage caps tags at
5, not 3 (`[...new Set(tags)].slice(0, 5)` in `categorizeVideo`). -/
theorem claim_C9_counterexample :
    (categorizeVideo (parseTranscript c9Content).title
        (parseTranscript c9Content).transcript).tags =
      ["miniaturepainting", "hobbypainting", "hobbytutorial", "hobbyvlog",
       "warmachine"] ∧
    hashtagLine (categorizeVideo (parseTranscript c9Content).title
        (parseTranscript c9Content).transcript).tags =
      "#miniaturepainting #hobbypainting #hobbytutorial #hobbyvlog #warmachine" ∧
    3 < (categorizeVideo (parseTranscript c9Content).title
        (parseTranscript c9Content).transcript).tags.length := by
  rw [c9_parse_eval]
  refine ⟨by decide, by decide, by decide⟩

/-- Claim C9 as amended: every describe-stage artifact ends with a
trailing hashtag line built from at most **5** tags, each drawn from a
fixed set of lower-case, whitespace-free tag literals; the MCP server's
`generate_description` tool is the component that caps hashtags at 3 and
lower-cases and whitespace-strips each tag. -/
theorem claim_C9_hashtag_line :
    (∀ (md : TranscriptMeta) (cat : String) (tags : List String) (summary : String),
      generateDescription md cat tags summary =
        descriptionPreamble summary ++ hashtagLine tags ++ "\n") ∧
    (∀ title transcript : String,
      (categorizeVideo title transcript).tags.length ≤ 5) ∧
    (∀ title transcript : String,
      ∀ t ∈ (categorizeVideo title transcript).tags, t ∈ allCategorizeTags) ∧
    (allCategorizeTags.all
      (fun t => (jsToLower t == t) && (stripAllWhitespace t == t)) = true) ∧
    (∀ (summary : String) (ts : Option (List McpTimestamp))
       (tags : Option (List String)),
      mcpGenerateDescription summary ts tags =
        mcpPreamble summary ts ++ mcpHashtagBlock tags) ∧
    (∀ l : List String, 0 < l.length →
      mcpHashtagBlock (some l) = mcpHashtagLine l ++ "\n" ∧
      (l.take 3).length ≤ 3) := by
  refine ⟨fun _ _ _ _ => rfl, ?_, categorizeVideo_tags_allowed, by decide,
    fun _ _ _ => rfl, ?_⟩
  · intro title transcript
    unfold categorizeVideo
    dsimp only
    exact List.length_take_le 5 _
  · intro l hl
    refine ⟨?_, List.length_take_le 3 l⟩
    unfold mcpHashtagBlock
    dsimp only
    rw [if_pos hl]

set_option maxRecDepth 2000 in
/-- Witness for the amended C9 at concrete inputs. -/
theorem claim_C9_witness :
    "warmachine" ∈ allCategorizeTags ∧
    mcpHashtagBlock (some ["Trench  Crusade", "B", "C", "D"]) =
      mcpHashtagLine ["Trench  Crusade", "B", "C", "D"] ++ "\n" :=
  ⟨claim_C9_hashtag_line.2.2.1 "how to vlog" "warmachine" "warmachine" (by decide),
   (claim_C9_hashtag_line.2.2.2.2.2 ["Trench  Crusade", "B", "C", "D"] (by decide)).1⟩

/-! ## Claim C4 — items already recorded are skipped on reruns -/

theorem fetchStep_skips (env : FetchEnv) (s : FetchState) (v : Video)
    (hrec : (lookupEntry s.memLog v.videoId).isSome) :
    fetchStep env s v = .ok { s with skipped := s.skipped + 1 } := by
  unfold fetchStep
  rw [if_pos hrec]

theorem fetchLoop_all_recorded (env : FetchEnv) (videos : List Video) (s : FetchState)
    (h : ∀ v ∈ videos, (lookupEntry s.memLog v.videoId).isSome) :
    fetchLoop env videos s = .ok { s with skipped := s.skipped + videos.length } := by
  induction videos generalizing s with
  | nil => simp [fetchLoop]
  | cons v vs ih =>
    rw [fetchLoop, fetchStep_skips env s v (h v (List.mem_cons_self v vs))]
    dsimp only
    rw [ih { s with skipped := s.skipped + 1 }
      (fun w hw => h w (List.mem_cons_of_mem _ hw))]
    simp only [List.length_cons]
    congr 2
    omega

theorem describeStep_skips (env : DescribeEnv) (s : DescribeState) (f : String)
    (hrec : (lookupEntry s.memLog f).isSome) :
    describeStep env s f = { s with skipped := s.skipped + 1 } := by
  unfold describeStep
  rw [if_pos hrec]

/-- Claim C4: for every stage, an item whose key is already recorded in
the ledger is skipped by the ledger check: no artifact is written for
it, its ledger entry is untouched, and it only counts into `skipped`.
Consequently a whole fetch run over only-recorded candidates changes
nothing but the skip counter, and the publish stage's update list never
contains a recorded video (in the default, non-`--video` invocation,
whose flag is documented to bypass the check). -/
theorem claim_C4_rerun_idempotence :
    (∀ (env : FetchEnv) (s : FetchState) (v : Video),
      (lookupEntry s.memLog v.videoId).isSome →
      fetchStep env s v = .ok { s with skipped := s.skipped + 1 }) ∧
    (∀ (env : FetchEnv) (l0 : List (String × DownloadRecord))
       (fs0 : List (String × String)) (videos : List Video),
      (∀ v ∈ videos, (lookupEntry l0 v.videoId).isSome) →
      fetchRun env l0 fs0 videos =
        .ok ({ initFetchState l0 fs0 with skipped := videos.length },
             ⟨videos.length, videos.length, 0, 0, 0, []⟩)) ∧
    (∀ (env : DescribeEnv) (s : DescribeState) (f : String),
      (lookupEntry s.memLog f).isSome →
      describeStep env s f = { s with skipped := s.skipped + 1 }) ∧
    (∀ (env : PushEnv) (flags : PushFlags) (l0 : List (String × PushRecord)),
      flags.singleVideo = none →
      ∀ u ∈ buildUpdateList env flags l0, lookupEntry l0 u.videoId = none) := by
  refine ⟨fetchStep_skips, ?_, describeStep_skips, ?_⟩
  · intro env l0 fs0 videos h
    unfold fetchRun
    rw [fetchLoop_all_recorded env videos _ h]
    simp [initFetchState]
  · intro env flags l0 hsv u hu
    unfold buildUpdateList at hu
    simp only [List.mem_filterMap] at hu
    obtain ⟨file, _, hf⟩ := hu
    split at hf
    · cases hf
    · rename_i videoId hvid
      split at hf
      · cases hf
      · split at hf
        · cases hf
        · rename_i hnotskip _
          split at hf
          · cases hf
            dsimp only
            rw [hsv] at hnotskip
            simp only [Option.isNone_none, Bool.and_true] at hnotskip
            exact Option.not_isSome_iff_eq_none.mp hnotskip
          · cases hf

/-- Witness for C4 at concrete inputs. -/
theorem claim_C4_witness :
    fetchStep c1Env (initFetchState [("vid1", ⟨"First Video", "First_Video.md", "t"⟩)] [])
        c1Video =
      .ok { initFetchState [("vid1", ⟨"First Video", "First_Video.md", "t"⟩)] [] with
            skipped := 1 } ∧
    fetchRun c1Env [("vid1", ⟨"First Video", "First_Video.md", "t"⟩)] [] [c1Video] =
      .ok ({ initFetchState [("vid1", ⟨"First Video", "First_Video.md", "t"⟩)] [] with
             skipped := 1 },
           ⟨1, 1, 0, 0, 0, []⟩) ∧
    describeStep ⟨fun _ => .ok "x", fun _ => true, "t"⟩
        (initDescribeState [("A.md", ⟨"A_description.txt", "vlog", [], "t"⟩)] []) "A.md" =
      { initDescribeState [("A.md", ⟨"A_description.txt", "vlog", [], "t"⟩)] [] with
        skipped := 1 } :=
  ⟨claim_C4_rerun_idempotence.1 c1Env _ c1Video (by decide),
   claim_C4_rerun_idempotence.2.1 c1Env _ [] [c1Video] (by decide),
   claim_C4_rerun_idempotence.2.2.1 ⟨fun _ => .ok "x", fun _ => true, "t"⟩ _ "A.md"
     (by decide)⟩

/-! ## Claim C5 — Unavailable outcomes are not recorded and are retried -/

/-- The ids that passed the skip-check, read off a loop-iteration
outcome (also defined on an abort, through the state it carries). -/
def attemptedOf : Except FetchAbort FetchState → List String
  | .ok s => s.attempted
  | .error a => a.stateAtAbort.attempted

theorem fetchStep_attempts (env : FetchEnv) (s : FetchState) (v : Video)
    (hnew : lookupEntry s.memLog v.videoId = none) :
    v.videoId ∈ attemptedOf (fetchStep env s v) := by
  unfold fetchStep
  rw [hnew, if_neg (by simp)]
  dsimp only
  split
  · split
    · simp [attemptedOf]
    · simp [attemptedOf]
  · simp [attemptedOf]

/-- Claim C5: an item whose transcript comes back unavailable gets no
ledger entry and no artifact — the step leaves the ledger (in-memory and
durable), the artifact store, the skip and download counters all
untouched, appending only to the run report — and therefore any later
run over a state with this ledger offers the item again (it passes the
skip-check, for any environment). -/
theorem claim_C5_unavailable_not_recorded (env : FetchEnv) (s : FetchState) (v : Video)
    (hnew : lookupEntry s.memLog v.videoId = none)
    (hunavail : getTranscript (env.transcriptOf v.videoId) = none) :
    fetchStep env s v = .ok { s with
        attempted := s.attempted ++ [v.videoId],
        results := s.results ++ [⟨v.videoId, v.title, false⟩] } ∧
    (∀ (env₂ : FetchEnv) (s₂ : FetchState), s₂.memLog = s.memLog →
      v.videoId ∈ attemptedOf (fetchStep env₂ s₂ v)) := by
  constructor
  · unfold fetchStep
    rw [hnew, if_neg (by simp)]
    dsimp only
    rw [hunavail]
  · intro env₂ s₂ hmem
    exact fetchStep_attempts env₂ s₂ v (by rw [hmem, hnew])

/-- A fetch environment whose transcript fetch always throws. -/
def c5Env : FetchEnv :=
  { transcriptOf := fun _ => .error "fetch failed",
    writeOk := fun _ => true, formatDate := fun d => d, now := "t" }

/-- Witness for C5 at concrete inputs: the item is reported unavailable,
not recorded, and re-attempted by a second run (even one where the
transcript would now succeed). -/
theorem claim_C5_witness :
    fetchStep c5Env (initFetchState [] []) c1Video =
      .ok { initFetchState [] [] with
            attempted := ["vid1"],
            results := [⟨"vid1", "First Video", false⟩] } ∧
    "vid1" ∈ attemptedOf (fetchStep c1Env (initFetchState [] []) c1Video) :=
  ⟨(claim_C5_unavailable_not_recorded c5Env (initFetchState [] []) c1Video rfl rfl).1,
   (claim_C5_unavailable_not_recorded c5Env (initFetchState [] []) c1Video rfl rfl).2
     c1Env (initFetchState [] []) rfl⟩

/-! ## Claim C2 — missing credentials: fatal, but after enumeration -/

/-- A publish environment with one pending item and no token file. -/
def c2Env : PushEnv :=
  { tokenExists := false,
    credentialsExists := false,
    transcriptFiles := ["A.md"],
    transcriptContentOf := fun _ => "# A\n\n- **Video ID:** vidA\n",
    descriptionExists := fun _ => true,
    descriptionContentOf := fun _ => "desc",
    remoteSnippet := fun _ => none,
    updateOk := fun _ => true,
    now := "t" }

/-- The default CLI invocation of the publish stage. -/
def c2Flags : PushFlags := ⟨false, false, none⟩

set_option maxRecDepth 2000 in
/-- Counterexample to C2: with pending work and no persisted credential
record, the run is fatal — but the catalog enumeration (`buildUpdateList`,
which reads the transcript directory and builds the full candidate list)
has already happened when the credential check halts the run: the first
observable event is the enumeration of 1 pending item, not the fatal
exit. -/
theorem claim_C2_counterexample :
    (pushMain c2Env c2Flags []).fatal = true ∧
    (pushMain c2Env c2Flags []).events =
      [PushEvent.enumerate 1, PushEvent.fatalNoTokens] ∧
    (pushMain c2Env c2Flags []).events.head? ≠ some PushEvent.fatalNoTokens := by
  refine ⟨by decide, by decide, by decide⟩

/-- Claim C2 as amended: when pending items exist and no credential
record is persisted, the publish run halts fatally before any item is
processed — no remote call, no ledger change, empty counters, and the
missing credentials are never treated as a per-item failure — but the
candidate list has already been built: the enumeration event precedes
the fatal exit.  (With no pending items the run returns before the
credential check is ever reached.) -/
theorem claim_C2_missing_credentials (env : PushEnv) (flags : PushFlags)
    (l0 : List (String × PushRecord))
    (hlist : flags.listOnly = false)
    (htok : env.tokenExists = false)
    (hpend : (buildUpdateList env flags l0).length ≠ 0) :
    pushMain env flags l0 =
      ⟨[PushEvent.enumerate (buildUpdateList env flags l0).length,
        PushEvent.fatalNoTokens], l0, l0, 0, 0, false, true⟩ := by
  unfold pushMain
  dsimp only
  rw [if_neg hpend, if_neg (by simp [hlist]), if_pos (by simp [htok])]
  rfl

/-- Witness for the amended C2 at the concrete environment. -/
theorem claim_C2_witness :
    pushMain c2Env c2Flags [] =
      ⟨[PushEvent.enumerate (buildUpdateList c2Env c2Flags []).length,
        PushEvent.fatalNoTokens], [], [], 0, 0, false, true⟩ :=
  claim_C2_missing_credentials c2Env c2Flags [] rfl rfl (by decide)

/-! ## Claim C6 — per-item isolation -/

theorem describeStep_counts (env : DescribeEnv) (s : DescribeState) (f : String) :
    ((describeStep env s f).processed + (describeStep env s f).skipped +
        (describeStep env s f).errored =
      s.processed + s.skipped + s.errored + 1) ∧
    ((describeStep env s f).skipped + (describeStep env s f).attempted.length =
      s.skipped + s.attempted.length + 1) := by
  unfold describeStep
  split
  · constructor <;> (simp; try omega)
  · split
    · constructor <;> (simp; try omega)
    · dsimp only
      split
      · constructor <;> (simp; try omega)
      · constructor <;> (simp; try omega)

theorem describeLoop_counts (env : DescribeEnv) (files : List String)
    (s : DescribeState) :
    ((files.foldl (describeStep env) s).processed +
        (files.foldl (describeStep env) s).skipped +
        (files.foldl (describeStep env) s).errored =
      s.processed + s.skipped + s.errored + files.length) ∧
    ((files.foldl (describeStep env) s).skipped +
        (files.foldl (describeStep env) s).attempted.length =
      s.skipped + s.attempted.length + files.length) := by
  induction files generalizing s with
  | nil => simp
  | cons f fs ih =>
    rw [List.foldl_cons]
    have h1 := describeStep_counts env s f
    have h2 := ih (describeStep env s f)
    simp only [List.length_cons]
    constructor <;> omega

theorem pushItemStep_counts (env : PushEnv) (flags : PushFlags)
    (st : PushLoopState) (u : UpdateItem) :
    (pushItemStep env flags st u).successCount + (pushItemStep env flags st u).errorCount =
      st.successCount + st.errorCount + 1 := by
  unfold pushItemStep
  split
  · simp
    omega
  · split
    · simp
      omega
    · dsimp only
      split
      · simp
        omega
      · simp
        omega

theorem pushLoop_counts (env : PushEnv) (flags : PushFlags)
    (updates : List UpdateItem) (st : PushLoopState) :
    (updates.foldl (pushItemStep env flags) st).successCount +
        (updates.foldl (pushItemStep env flags) st).errorCount =
      st.successCount + st.errorCount + updates.length := by
  induction updates generalizing st with
  | nil => simp
  | cons u us ih =>
    rw [List.foldl_cons]
    have h1 := pushItemStep_counts env flags st u
    have h2 := ih (pushItemStep env flags st u)
    simp only [List.length_cons]
    omega

theorem fetchStep_write_failure (env : FetchEnv) (s : FetchState) (v : Video)
    (t : List TranscriptItem)
    (hnew : lookupEntry s.memLog v.videoId = none)
    (havail : getTranscript (env.transcriptOf v.videoId) = some t)
    (hfail : env.writeOk (fetchArtifactPath v) = false) :
    fetchStep env s v =
      .error ⟨v.videoId, { s with attempted := s.attempted ++ [v.videoId] }⟩ := by
  unfold fetchStep
  rw [hnew, if_neg (by simp)]
  dsimp only
  rw [havail]
  dsimp only
  rw [show env.writeOk (fetchOutputDir ++ "/" ++ fetchArtifactFilename v) = false from hfail]
  simp

/-- Claim C6 as amended: in the describe and publish stages, every
per-item exception is caught — every `.md` candidate is accounted for in
the final counts (processed + skipped + errored for describe; success +
error for publish) and the summary is always produced; but in the fetch
stage, an artifact write failure is *not* caught per item: the loop
aborts at that item, the remaining candidates are never attempted and no
summary or ledger write happens (transcript-retrieval errors there are
absorbed as Unavailable instead, claim C10). -/
theorem claim_C6_isolation :
    (∀ (env : DescribeEnv) (l0 : List (String × ProcessedRecord))
       (fs0 : List (String × String)) (listing : List String),
      ((describeRun env l0 fs0 listing).1.processed +
          (describeRun env l0 fs0 listing).1.skipped +
          (describeRun env l0 fs0 listing).1.errored =
        (listing.filter (fun f => jsEndsWith f ".md")).length) ∧
      (describeRun env l0 fs0 listing).2.total =
        (listing.filter (fun f => jsEndsWith f ".md")).length) ∧
    (∀ (env : PushEnv) (flags : PushFlags) (l0 : List (String × PushRecord)),
      flags.listOnly = false → env.tokenExists = true →
      env.credentialsExists = true →
      (buildUpdateList env flags l0).length ≠ 0 →
      ((pushMain env flags l0).successCount + (pushMain env flags l0).errorCount =
        (buildUpdateList env flags l0).length) ∧
      (pushMain env flags l0).summaryPrinted = true) ∧
    (∀ (env : FetchEnv) (s : FetchState) (v : Video) (t : List TranscriptItem)
       (rest : List Video),
      lookupEntry s.memLog v.videoId = none →
      getTranscript (env.transcriptOf v.videoId) = some t →
      env.writeOk (fetchArtifactPath v) = false →
      fetchLoop env (v :: rest) s =
        .error ⟨v.videoId, { s with attempted := s.attempted ++ [v.videoId] }⟩) := by
  refine ⟨?_, ?_, ?_⟩
  · intro env l0 fs0 listing
    unfold describeRun
    dsimp only
    have h := (describeLoop_counts env (listing.filter (fun f => jsEndsWith f ".md"))
      (initDescribeState l0 fs0)).1
    constructor
    · simp only [initDescribeState, List.length_nil] at h ⊢
      omega
    · rfl
  · intro env flags l0 hlist htok hcred hpend
    unfold pushMain
    dsimp only
    rw [if_neg hpend, if_neg (by simp [hlist]), if_neg (by simp [htok]),
      if_neg (by simp [hcred])]
    dsimp only
    have h := pushLoop_counts env flags (buildUpdateList env flags l0)
      ⟨[PushEvent.enumerate (buildUpdateList env flags l0).length], l0, l0, 0, 0⟩
    dsimp only at h
    exact ⟨by omega, rfl⟩
  · intro env s v t rest hnew havail hfail
    rw [fetchLoop, fetchStep_write_failure env s v t hnew havail hfail]

/-- A fetch environment where transcripts exist but every artifact write
fails. -/
def c6Env : FetchEnv :=
  { transcriptOf := fun _ => .ok (some [⟨some "text", none, none⟩]),
    writeOk := fun _ => false, formatDate := fun d => d, now := "t" }

/-- Counterexample to C6: in the fetch stage a write failure on the
first candidate aborts the whole run — the second candidate is never
attempted, no summary is produced and the ledger is never saved (the run
result is an abort, not a state–summary pair). -/
theorem claim_C6_counterexample :
    fetchRun c6Env [] [] [⟨"a", "A", "", ""⟩, ⟨"b", "B", "", ""⟩] =
      .error ⟨"a", { initFetchState [] [] with attempted := ["a"] }⟩ := by
  rfl

/-- A publish environment where the remote read fails for every item
(caught per item). -/
def c6PushEnv : PushEnv :=
  { tokenExists := true,
    credentialsExists := true,
    transcriptFiles := ["A.md"],
    transcriptContentOf := fun _ => "# A\n\n- **Video ID:** vidA\n",
    descriptionExists := fun _ => true,
    descriptionContentOf := fun _ => "desc",
    remoteSnippet := fun _ => none,
    updateOk := fun _ => true,
    now := "t" }

set_option maxRecDepth 2000 in
/-- Witness for the amended C6 at concrete inputs: the describe run
accounts for its single `.md` candidate; the publish run with a failing
remote still produces its summary with one (error) item counted. -/
theorem claim_C6_witness :
    ((describeRun ⟨fun _ => .error "io error", fun _ => true, "t"⟩ [] []
        ["A.md", "notes.txt"]).1.processed +
      (describeRun ⟨fun _ => .error "io error", fun _ => true, "t"⟩ [] []
        ["A.md", "notes.txt"]).1.skipped +
      (describeRun ⟨fun _ => .error "io error", fun _ => true, "t"⟩ [] []
        ["A.md", "notes.txt"]).1.errored =
      (["A.md", "notes.txt"].filter (fun f => jsEndsWith f ".md")).length) ∧
    ((pushMain c6PushEnv c2Flags []).successCount +
        (pushMain c6PushEnv c2Flags []).errorCount =
      (buildUpdateList c6PushEnv c2Flags []).length) ∧
    (pushMain c6PushEnv c2Flags []).summaryPrinted = true :=
  ⟨(claim_C6_isolation.1 ⟨fun _ => .error "io error", fun _ => true, "t"⟩ [] []
      ["A.md", "notes.txt"]).1,
   (claim_C6_isolation.2.1 c6PushEnv c2Flags [] rfl rfl rfl (by decide)).1,
   (claim_C6_isolation.2.1 c6PushEnv c2Flags [] rfl rfl rfl (by decide)).2⟩
